import Mathlib

/-
Verification of the search-terms sanitization pipeline
(mozilla/search-terms-sanitization).

The repository's production job filters personally identifying
information (PII) out of a day's search-query log.  The layered
decision procedure (allow list, digit rule, at-sign rule, NER person
check), the sampler, the aggregator and the run-level atomicity
contract live in `nightly-job/query_sanitization.py` and
`nightly-job/sanitation_job.py`, which are described by the repository
README and the specification; the downstream language-table population
is the `POPULATE_LANGUAGES_TABLE` SQL query in the staging notebook.
Each definition below records, in its doc comment, the source artifact
it embeds.
-/

namespace SearchTermsSanitization

/-- Modelled from the spec: removal reasons of the Detection Engine in
`query_sanitization.py` (not under `src/`).  A removed term has reason
numeral, at_symbol or person_name. -/
inductive Reason
  | numeral
  | at_symbol
  | person_name
  deriving DecidableEq, Repr

/-- Modelled from the spec: the per-term tagged outcome, Kept or
Removed with a reason. -/
inductive Verdict
  | Kept
  | Removed (r : Reason)
  deriving DecidableEq, Repr

/-- Modelled from the spec: per-term monitoring signals — detected
language code (may be absent), surname-match flag, has-capital-letter
flag.  Computed independently of the Verdict. -/
structure MonitoringSignals where
  language : Option String
  surnameMatch : Bool
  hasCapital : Bool
  deriving DecidableEq, Repr

/-- Modelled from the spec: the digit check of Layer 2 — the term
contains any numeral 0-9. -/
def hasDigit (t : String) : Bool := t.data.any Char.isDigit

/-- Modelled from the spec: the at-sign check of Layer 2 — the term
contains the character at-sign. -/
def hasAt (t : String) : Bool := t.data.any (fun c => c == '@')

/-- Modelled from the spec: Layer 1 — the term, normalized per the
allow-list's own normalization `norm`, is a member of the allow list. -/
def isAllowed (allow : List String) (norm : String → String) (t : String) : Bool :=
  allow.contains (norm t)

/-- Modelled from the spec: split a character list into space-separated
words, used to check surname-token membership. -/
def wordsAux (cur : List Char) : List Char → List (List Char)
  | [] => [cur.reverse]
  | c :: cs => if c == ' ' then cur.reverse :: wordsAux [] cs else wordsAux (c :: cur) cs

/-- Modelled from the spec: the space-separated word tokens of a term. -/
def words (t : String) : List String :=
  (wordsAux [] t.data).map (fun cs => String.mk cs)

/-- Modelled from the spec: the monitoring-only surname check — some
token of the term is a member of the surname set. -/
def surnameMatch (surn : List String) (t : String) : Bool :=
  (words t).any (fun w => surn.contains w)

/-- Modelled from the spec: the per-term decision procedure of the
Detection Engine in `query_sanitization.py`, in the defined order:
allow list, then digit, then at-sign, then the NER person check.
`ner t` is the (pure) classifier handle's answer for whether the term
has an entity labeled PERSON. -/
def decideTerm (allow : List String) (norm : String → String)
    (ner : String → Bool) (t : String) : Verdict :=
  if isAllowed allow norm t then Verdict.Kept
  else if hasDigit t then Verdict.Removed Reason.numeral
  else if hasAt t then Verdict.Removed Reason.at_symbol
  else if ner t then Verdict.Removed Reason.person_name
  else Verdict.Kept

/-- Modelled from the spec: monitoring signals are computed for every
non-allow-listed term (language code, surname match, capital letter)
and not at all for allow-listed terms. -/
def computeSignals (allow : List String) (norm : String → String)
    (langOf : String → Option String) (surn : List String)
    (t : String) : Option MonitoringSignals :=
  if isAllowed allow norm t then none
  else some ⟨langOf t, surnameMatch surn t, t.data.any Char.isUpper⟩

/-- Modelled from the spec: the residual of a batch — the terms that
are not allow-listed and contain no digit and no at-sign.  Exactly
these terms are handed to the NER model, in one batched invocation. -/
def residualBatch (allow : List String) (norm : String → String)
    (batch : List String) : List String :=
  batch.filter (fun t => !isAllowed allow norm t && !hasDigit t && !hasAt t)

/-- Modelled from the spec: the output of the Detection Engine on one
batch — a verdict and optional monitoring signals per term, plus the
argument lists of the NER-model invocations the engine performs (one
batched call on the residual). -/
structure EngineOutput where
  verdicts : List (String × Verdict)
  signals : List (String × Option MonitoringSignals)
  nerInvocations : List (List String)
  deriving DecidableEq, Repr

/-- Modelled from the spec: the Detection Engine on one batch.  The
classifier handle `ner` is pure, so the per-term batched NER result
coincides with `ner t`; the engine issues a single batched invocation,
recorded in `nerInvocations`. -/
def detectBatch (allow : List String) (norm : String → String)
    (ner : String → Bool) (langOf : String → Option String)
    (surn : List String) (batch : List String) : EngineOutput :=
  { verdicts := batch.map (fun t => (t, decideTerm allow norm ner t))
    signals := batch.map (fun t => (t, computeSignals allow norm langOf surn t))
    nerInvocations := [residualBatch allow norm batch] }

/-- Modelled from the spec: the kept terms of a batch, i.e. the rows
the Exporter stages for the sanitized destination. -/
def keptTerms (out : EngineOutput) : List String :=
  out.verdicts.filterMap (fun tv => if tv.2 = Verdict.Kept then some tv.1 else none)

/-- C1: a term whose normalized form is in the AllowList is Kept, its
monitoring signals are not computed, and it is excluded from the
residual batch sent to the NER model — regardless of digits, at-signs,
or what the NER classifier would report. -/
theorem allowlist_precedence (allow : List String) (norm : String → String)
    (ner : String → Bool) (langOf : String → Option String)
    (surn : List String) (batch : List String) (t : String)
    (h : isAllowed allow norm t = true) :
    decideTerm allow norm ner t = Verdict.Kept ∧
    computeSignals allow norm langOf surn t = none ∧
    t ∉ residualBatch allow norm batch := by
  refine ⟨?_, ?_, ?_⟩
  · simp [decideTerm, h]
  · simp [computeSignals, h]
  · simp [residualBatch, List.mem_filter, h]

/-- Witness for C1 at a concrete allow-listed term that contains a
digit, with an NER oracle that reports a person for every input. -/
theorem allowlist_precedence_witness :
    isAllowed (["happy birthday wishes 2024"]) (fun s => s) ("happy birthday wishes 2024") = true ∧
    (decideTerm (["happy birthday wishes 2024"]) (fun s => s) (fun _ => true)
        ("happy birthday wishes 2024") = Verdict.Kept ∧
      computeSignals (["happy birthday wishes 2024"]) (fun s => s) (fun _ => some ("en"))
        (["smith"]) ("happy birthday wishes 2024") = none ∧
      ("happy birthday wishes 2024") ∉
        residualBatch (["happy birthday wishes 2024"]) (fun s => s)
          (["happy birthday wishes 2024", "apple pie"])) :=
  ⟨by decide,
    allowlist_precedence (["happy birthday wishes 2024"]) (fun s => s) (fun _ => true)
      (fun _ => some ("en")) (["smith"])
      (["happy birthday wishes 2024", "apple pie"]) ("happy birthday wishes 2024") (by decide)⟩

/-- C2: a non-allow-listed term containing both a digit and an at-sign
is removed with reason numeral (the digit check runs first), and no
term containing a digit or an at-sign appears in any batch handed to
the NER model. -/
theorem rule_precedence (allow : List String) (norm : String → String)
    (ner : String → Bool) (langOf : String → Option String)
    (surn : List String) (batch : List String) (t : String)
    (hA : isAllowed allow norm t = false)
    (hd : hasDigit t = true) (ha : hasAt t = true) :
    decideTerm allow norm ner t = Verdict.Removed Reason.numeral ∧
    ∀ inv ∈ (detectBatch allow norm ner langOf surn batch).nerInvocations,
      ∀ u ∈ inv, hasDigit u = false ∧ hasAt u = false := by
  constructor
  · simp [decideTerm, hA, hd]
  · intro inv hinv u hu
    simp only [detectBatch, List.mem_singleton] at hinv
    subst hinv
    simp only [residualBatch, List.mem_filter, Bool.and_eq_true, Bool.not_eq_true'] at hu
    exact ⟨hu.2.1.2, hu.2.2⟩

/-- Witness for C2 at the concrete term "contact me@example.com 555",
which contains both a digit and an at-sign. -/
theorem rule_precedence_witness :
    isAllowed ([] : List String) (fun s => s) ("contact me@example.com 555") = false ∧
    hasDigit ("contact me@example.com 555") = true ∧
    hasAt ("contact me@example.com 555") = true ∧
    (decideTerm ([] : List String) (fun s => s) (fun _ => true)
        ("contact me@example.com 555") = Verdict.Removed Reason.numeral ∧
      ∀ inv ∈ (detectBatch ([] : List String) (fun s => s) (fun _ => true)
          (fun _ => some ("en")) ([] : List String)
          (["contact me@example.com 555", "apple pie"])).nerInvocations,
        ∀ u ∈ inv, hasDigit u = false ∧ hasAt u = false) :=
  ⟨by decide, by decide, by decide,
    rule_precedence ([] : List String) (fun s => s) (fun _ => true)
      (fun _ => some ("en")) ([] : List String)
      (["contact me@example.com 555", "apple pie"])
      ("contact me@example.com 555") (by decide) (by decide) (by decide)⟩

/-- C5: the verdicts of the Detection Engine do not depend on the
surname set (two runs differing only in the surname set produce
identical verdict lists), and a term of the batch whose verdict is
Kept appears among the kept terms staged for the sanitized output. -/
theorem surname_independence (allow : List String) (norm : String → String)
    (ner : String → Bool) (langOf : String → Option String)
    (surn1 surn2 : List String) (batch : List String) (t : String)
    (hmem : t ∈ batch)
    (hkept : decideTerm allow norm ner t = Verdict.Kept) :
    (detectBatch allow norm ner langOf surn1 batch).verdicts
      = (detectBatch allow norm ner langOf surn2 batch).verdicts ∧
    t ∈ keptTerms (detectBatch allow norm ner langOf surn1 batch) := by
  constructor
  · rfl
  · simp only [keptTerms, detectBatch, List.mem_filterMap, List.mem_map]
    exact ⟨(t, Verdict.Kept), ⟨t, hmem, by rw [hkept]⟩, by simp⟩

/-- Witness for C5: the term "smith" matches the surname set
(["smith"]), is kept by the engine, its verdict list is unchanged when
the surname set is emptied, and it appears in the kept output. -/
theorem surname_independence_witness :
    surnameMatch (["smith"]) ("smith") = true ∧
    ((detectBatch ([] : List String) (fun s => s) (fun _ => false)
        (fun _ => some ("en")) (["smith"]) (["smith", "apple pie"])).verdicts
      = (detectBatch ([] : List String) (fun s => s) (fun _ => false)
          (fun _ => some ("en")) ([] : List String) (["smith", "apple pie"])).verdicts ∧
      ("smith") ∈ keptTerms (detectBatch ([] : List String) (fun s => s) (fun _ => false)
        (fun _ => some ("en")) (["smith"]) (["smith", "apple pie"]))) :=
  ⟨by decide,
    surname_independence ([] : List String) (fun s => s) (fun _ => false)
      (fun _ => some ("en")) (["smith"]) ([] : List String)
      (["smith", "apple pie"]) ("smith") (by decide) (by decide)⟩

/-- C6: for a non-allow-listed term with no digit and no at-sign, the
verdict is Removed person_name exactly when the NER classifier reports
a person entity, it is Kept otherwise, and the engine performs exactly
one batched NER invocation per batch. -/
theorem ner_residual_decision (allow : List String) (norm : String → String)
    (ner : String → Bool) (langOf : String → Option String)
    (surn : List String) (batch : List String) (t : String)
    (hA : isAllowed allow norm t = false)
    (hd : hasDigit t = false) (ha : hasAt t = false) :
    (decideTerm allow norm ner t = Verdict.Removed Reason.person_name ↔ ner t = true) ∧
    (ner t = false → decideTerm allow norm ner t = Verdict.Kept) ∧
    (detectBatch allow norm ner langOf surn batch).nerInvocations.length = 1 := by
  refine ⟨?_, ?_, rfl⟩
  · cases hn : ner t <;> simp [decideTerm, hA, hd, ha, hn]
  · intro hn; simp [decideTerm, hA, hd, ha, hn]

/-- Witness for C6 at the concrete residual term "taylor swift tour
dates" with an NER oracle reporting a person entity for it. -/
theorem ner_residual_decision_witness :
    isAllowed ([] : List String) (fun s => s) ("taylor swift tour dates") = false ∧
    hasDigit ("taylor swift tour dates") = false ∧
    hasAt ("taylor swift tour dates") = false ∧
    ((decideTerm ([] : List String) (fun s => s) (fun _ => true)
        ("taylor swift tour dates") = Verdict.Removed Reason.person_name ↔
        (fun _ => true) ("taylor swift tour dates") = true) ∧
      ((fun _ => true) ("taylor swift tour dates") = false →
        decideTerm ([] : List String) (fun s => s) (fun _ => true)
          ("taylor swift tour dates") = Verdict.Kept) ∧
      (detectBatch ([] : List String) (fun s => s) (fun _ => true)
        (fun _ => some ("en")) ([] : List String)
        (["taylor swift tour dates", "apple pie"])).nerInvocations.length = 1) :=
  ⟨by decide, by decide, by decide,
    ner_residual_decision ([] : List String) (fun s => s) (fun _ => true)
      (fun _ => some ("en")) ([] : List String)
      (["taylor swift tour dates", "apple pie"]) ("taylor swift tour dates")
      (by decide) (by decide) (by decide)⟩

/-- Modelled from the spec: the RunAggregate accumulator scoped to one
run — total seen, kept count, removed count per reason, per-language
counts, surname-match count, capitalized count. -/
structure RunAggregate where
  total : Nat
  kept : Nat
  removedNumeral : Nat
  removedAtSymbol : Nat
  removedPersonName : Nat
  langCounts : List (String × Nat)
  surnameMatches : Nat
  capitalized : Nat
  deriving DecidableEq, Repr

/-- Modelled from the spec: the empty aggregate a run starts from. -/
def RunAggregate.init : RunAggregate :=
  ⟨0, 0, 0, 0, 0, [], 0, 0⟩

/-- Modelled from the spec: bump the per-language count for a detected
language code (absent codes leave the mapping unchanged). -/
def bumpLang (counts : List (String × Nat)) (code : Option String) : List (String × Nat) :=
  match code with
  | none => counts
  | some c =>
    if counts.any (fun kv => kv.1 == c) then
      counts.map (fun kv => if kv.1 == c then (kv.1, kv.2 + 1) else kv)
    else
      counts ++ [(c, 1)]

/-- Modelled from the spec: the Aggregator's observe call — an O(1)
update of the RunAggregate with one term's verdict and signals. -/
def RunAggregate.observe (a : RunAggregate) (v : Verdict)
    (s : Option MonitoringSignals) : RunAggregate :=
  let a1 :=
    match v with
    | Verdict.Kept =>
      { a with total := a.total + 1, kept := a.kept + 1 }
    | Verdict.Removed Reason.numeral =>
      { a with total := a.total + 1, removedNumeral := a.removedNumeral + 1 }
    | Verdict.Removed Reason.at_symbol =>
      { a with total := a.total + 1, removedAtSymbol := a.removedAtSymbol + 1 }
    | Verdict.Removed Reason.person_name =>
      { a with total := a.total + 1, removedPersonName := a.removedPersonName + 1 }
  match s with
  | none => a1
  | some sg =>
    { a1 with
      langCounts := bumpLang a1.langCounts sg.language
      surnameMatches := a1.surnameMatches + (if sg.surnameMatch then 1 else 0)
      capitalized := a1.capitalized + (if sg.hasCapital then 1 else 0) }

/-- Modelled from the spec: the conservation property of a
RunAggregate — kept plus the removals summed over the three reasons
equals the total number of terms observed. -/
def RunAggregate.conserved (a : RunAggregate) : Prop :=
  a.kept + (a.removedNumeral + a.removedAtSymbol + a.removedPersonName) = a.total

instance (a : RunAggregate) : Decidable a.conserved := by
  unfold RunAggregate.conserved; infer_instance

/-- Modelled from the spec: the aggregate reached after observing a
sequence of (verdict, signals) pairs, starting from the empty
aggregate. -/
def runAggregateOf (obs : List (Verdict × Option MonitoringSignals)) : RunAggregate :=
  obs.foldl (fun a p => a.observe p.1 p.2) RunAggregate.init

theorem observe_total (a : RunAggregate) (v : Verdict) (s : Option MonitoringSignals) :
    (a.observe v s).total = a.total + 1 := by
  cases v with
  | Kept => cases s <;> rfl
  | Removed r => cases r <;> cases s <;> rfl

theorem observe_conserved (a : RunAggregate) (v : Verdict) (s : Option MonitoringSignals)
    (h : a.conserved) : (a.observe v s).conserved := by
  unfold RunAggregate.conserved at h ⊢
  cases v with
  | Kept => cases s <;> simp [RunAggregate.observe] <;> omega
  | Removed r => cases r <;> cases s <;> simp [RunAggregate.observe] <;> omega

theorem foldl_observe_conserved (obs : List (Verdict × Option MonitoringSignals)) :
    ∀ a : RunAggregate, a.conserved →
      (obs.foldl (fun a p => a.observe p.1 p.2) a).conserved ∧
      (obs.foldl (fun a p => a.observe p.1 p.2) a).total = a.total + obs.length := by
  induction obs with
  | nil => intro a h; exact ⟨h, rfl⟩
  | cons p rest ih =>
    intro a h
    have step := ih (a.observe p.1 p.2) (observe_conserved a p.1 p.2 h)
    refine ⟨step.1, ?_⟩
    simp only [List.foldl_cons, List.length_cons]
    rw [step.2, observe_total]
    omega

/-- C3: for every sequence of observe calls, the resulting
RunAggregate conserves counts — kept plus the removals summed over
reasons equals the total observed — and the total equals the number of
observations; since the observation sequence is arbitrary, this holds
after every observe call of a run. -/
theorem aggregate_conservation (obs : List (Verdict × Option MonitoringSignals)) :
    (runAggregateOf obs).conserved ∧ (runAggregateOf obs).total = obs.length := by
  have h := foldl_observe_conserved obs RunAggregate.init (by decide)
  exact ⟨h.1, by simpa [runAggregateOf, RunAggregate.init] using h.2⟩

/-- Modelled from the spec: the run-fatal error taxonomy of the
sanitization job. -/
inductive RunError
  | SourceReadError
  | ClassifierError
  | ExportError
  | ConfigurationError
  deriving DecidableEq, Repr

/-- Modelled from the spec: the human-readable message the Job
Recorder writes for each error. -/
def RunError.message : RunError → String
  | RunError.SourceReadError => "could not read source search terms for the requested date range"
  | RunError.ClassifierError => "classifier model invocation failed"
  | RunError.ExportError => "destination write failed"
  | RunError.ConfigurationError => "missing or invalid destination or run date"

/-- Modelled from the spec: a run's terminal status. -/
inductive RunStatus
  | success
  | failure
  deriving DecidableEq, Repr

/-- Modelled from the spec: one JobRun metadata row — status and error
message (empty on success). -/
structure JobRunRow where
  status : RunStatus
  errorMessage : String
  deriving DecidableEq, Repr

/-- Modelled from the spec: the visible contents of the three
destinations after a run — sanitized kept terms, the raw sample, and
the job-metadata rows. -/
structure Destinations where
  sanitized : List String
  sample : List String
  jobRuns : List JobRunRow
  deriving DecidableEq, Repr

/-- Modelled from the spec: staging of per-batch results.  Each batch
either yields its kept rows and sample rows or raises a run-fatal
error; the first error aborts the run and discards the staged rows
(buffer-then-flush / staging-then-swap). -/
def stageBatches : List (Except RunError (List String × List String)) →
    Except RunError (List String × List String)
  | [] => Except.ok ([], [])
  | Except.error e :: _ => Except.error e
  | Except.ok p :: rest =>
    match stageBatches rest with
    | Except.error e => Except.error e
    | Except.ok q => Except.ok (p.1 ++ q.1, p.2 ++ q.2)

/-- Modelled from the spec: one whole run.  On success all staged rows
become visible and the Job Recorder writes one success row; on any
run-fatal error nothing becomes visible and the Job Recorder writes
exactly one failure row carrying the error's message. -/
def runJob (batches : List (Except RunError (List String × List String))) : Destinations :=
  match stageBatches batches with
  | Except.ok p =>
    { sanitized := p.1, sample := p.2, jobRuns := [⟨RunStatus.success, ""⟩] }
  | Except.error e =>
    { sanitized := [], sample := [], jobRuns := [⟨RunStatus.failure, e.message⟩] }

/-- C4: a run on which any of the four run-fatal errors surfaces makes
zero kept-term rows and zero sample rows visible, and the Job Recorder
writes exactly one JobRun row, with failure status and a non-empty
error message. -/
theorem atomic_failure (batches : List (Except RunError (List String × List String)))
    (e : RunError) (h : stageBatches batches = Except.error e) :
    (runJob batches).sanitized = [] ∧
    (runJob batches).sample = [] ∧
    (runJob batches).jobRuns = [⟨RunStatus.failure, e.message⟩] ∧
    e.message ≠ "" := by
  refine ⟨?_, ?_, ?_, ?_⟩
  · simp [runJob, h]
  · simp [runJob, h]
  · simp [runJob, h]
  · cases e <;> simp [RunError.message]

/-- Witness for C4: an ExportError injected after 3 of 5 batches; the
staged rows of the first three batches are discarded, nothing is
visible, and the single metadata row records the failure. -/
theorem atomic_failure_witness :
    stageBatches
        ([Except.ok (["a"], ["s1"]), Except.ok (["b"], []), Except.ok (["c"], ["s2"]),
          Except.error RunError.ExportError, Except.ok (["d"], [])])
      = Except.error RunError.ExportError ∧
    ((runJob ([Except.ok (["a"], ["s1"]), Except.ok (["b"], []), Except.ok (["c"], ["s2"]),
          Except.error RunError.ExportError, Except.ok (["d"], [])])).sanitized = [] ∧
      (runJob ([Except.ok (["a"], ["s1"]), Except.ok (["b"], []), Except.ok (["c"], ["s2"]),
          Except.error RunError.ExportError, Except.ok (["d"], [])])).sample = [] ∧
      (runJob ([Except.ok (["a"], ["s1"]), Except.ok (["b"], []), Except.ok (["c"], ["s2"]),
          Except.error RunError.ExportError, Except.ok (["d"], [])])).jobRuns
        = [⟨RunStatus.failure, RunError.ExportError.message⟩] ∧
      RunError.ExportError.message ≠ "") :=
  ⟨rfl,
    atomic_failure
      ([Except.ok (["a"], ["s1"]), Except.ok (["b"], []), Except.ok (["c"], ["s2"]),
        Except.error RunError.ExportError, Except.ok (["d"], [])])
      RunError.ExportError rfl⟩

/-- Modelled from the spec: the Sampler's per-term decision.  Each
observed RawTerm comes with one independent uniform draw from 100
equally likely cells; the term is included in the debug sample exactly
when the draw hits the single designated cell, so the inclusion
probability is 1/100 = 0.01.  The verdict is passed in but ignored:
sampling is independent of the Detection Engine. -/
def samplerDraw (draw : Fin 100) (v : Verdict) : Bool :=
  draw.val == 0

/-- Modelled from the spec: the sample size over a run of N terms,
given the N independent uniform draws and the N verdicts. -/
def sampleCount (N : Nat) (d : Fin N → Fin 100) (verdicts : Fin N → Verdict) : Nat :=
  (Finset.univ.filter (fun i => samplerDraw (d i) (verdicts i) = true)).card

theorem sampleCount_eq_sum (N : Nat) (d : Fin N → Fin 100) (v : Fin N → Verdict) :
    sampleCount N d v = ∑ i : Fin N, if samplerDraw (d i) (v i) = true then 1 else 0 :=
  Finset.card_filter _ _

theorem sampleCount_cons (n : Nat) (x : Fin 100) (d : Fin n → Fin 100)
    (v : Fin (n + 1) → Verdict) :
    sampleCount (n + 1) (Fin.cons x d) v
      = (if samplerDraw x (v 0) = true then 1 else 0)
        + sampleCount n d (fun i => v i.succ) := by
  rw [sampleCount_eq_sum, sampleCount_eq_sum, Fin.sum_univ_succ]
  simp

theorem samplerDraw_cell_sum (w : Verdict) :
    ∑ x : Fin 100, (if samplerDraw x w = true then 1 else 0) = 1 := by
  have h : ∑ x : Fin 100, (if samplerDraw x w = true then 1 else 0)
      = (Finset.univ.filter (fun x : Fin 100 => samplerDraw x w = true)).card :=
    (Finset.card_filter _ _).symm
  rw [h]
  simp only [samplerDraw, beq_iff_eq]
  decide

/-- Total sample count over the uniform space of all draw vectors: the
sum over every possible assignment of draws equals N times 100 to the
N minus 1, i.e. the expected sample size is N/100. -/
theorem sampler_sum : ∀ (N : Nat) (v : Fin N → Verdict),
    100 * ∑ d : Fin N → Fin 100, sampleCount N d v = N * 100 ^ N := by
  intro N
  induction N with
  | zero =>
    intro v
    simp [sampleCount]
  | succ n ih =>
    intro v
    have hcomp :
        ∑ p : Fin 100 × (Fin n → Fin 100),
            sampleCount (n + 1) ((Fin.consEquiv fun _ => Fin 100) p) v
          = ∑ d : Fin (n + 1) → Fin 100, sampleCount (n + 1) d v :=
      Equiv.sum_comp (Fin.consEquiv fun _ => Fin 100) (fun d => sampleCount (n + 1) d v)
    have hsplit :
        ∑ p : Fin 100 × (Fin n → Fin 100),
            sampleCount (n + 1) ((Fin.consEquiv fun _ => Fin 100) p) v
          = ∑ x : Fin 100, ∑ d : Fin n → Fin 100,
              ((if samplerDraw x (v 0) = true then 1 else 0)
                + sampleCount n d (fun i => v i.succ)) := by
      rw [Fintype.sum_prod_type]
      refine Finset.sum_congr rfl (fun x _ => Finset.sum_congr rfl (fun d _ => ?_))
      simpa [Fin.consEquiv] using sampleCount_cons n x d v
    have hcard : Fintype.card (Fin n → Fin 100) = 100 ^ n := by
      simp [Fintype.card_fun]
    have hinner : ∀ x : Fin 100,
        ∑ d : Fin n → Fin 100,
            ((if samplerDraw x (v 0) = true then 1 else 0)
              + sampleCount n d (fun i => v i.succ))
          = 100 ^ n * (if samplerDraw x (v 0) = true then 1 else 0)
            + ∑ d : Fin n → Fin 100, sampleCount n d (fun i => v i.succ) := by
      intro x
      rw [Finset.sum_add_distrib, Finset.sum_const, Finset.card_univ, hcard,
        smul_eq_mul]
    have hS :
        ∑ d : Fin (n + 1) → Fin 100, sampleCount (n + 1) d v
          = 100 ^ n + 100 * ∑ d : Fin n → Fin 100, sampleCount n d (fun i => v i.succ) := by
      rw [← hcomp, hsplit]
      calc ∑ x : Fin 100, ∑ d : Fin n → Fin 100,
              ((if samplerDraw x (v 0) = true then 1 else 0)
                + sampleCount n d (fun i => v i.succ))
          = ∑ x : Fin 100,
              (100 ^ n * (if samplerDraw x (v 0) = true then 1 else 0)
                + ∑ d : Fin n → Fin 100, sampleCount n d (fun i => v i.succ)) :=
            Finset.sum_congr rfl (fun x _ => hinner x)
        _ = 100 ^ n * (∑ x : Fin 100, (if samplerDraw x (v 0) = true then 1 else 0))
              + 100 * ∑ d : Fin n → Fin 100, sampleCount n d (fun i => v i.succ) := by
            rw [Finset.sum_add_distrib, ← Finset.mul_sum, Finset.sum_const,
              Finset.card_univ, Fintype.card_fin, smul_eq_mul]
        _ = 100 ^ n + 100 * ∑ d : Fin n → Fin 100, sampleCount n d (fun i => v i.succ) := by
            rw [samplerDraw_cell_sum, Nat.mul_one]
    have ihv := ih (fun i => v i.succ)
    calc 100 * ∑ d : Fin (n + 1) → Fin 100, sampleCount (n + 1) d v
        = 100 * 100 ^ n
          + 100 * (100 * ∑ d : Fin n → Fin 100, sampleCount n d (fun i => v i.succ)) := by
          rw [hS]; ring
      _ = 100 * 100 ^ n + 100 * (n * 100 ^ n) := by rw [ihv]
      _ = (n + 1) * 100 ^ (n + 1) := by ring

/-- C7: the Sampler's inclusion decision ignores the verdict (it is
independent of the Detection Engine), each per-term draw includes the
term with probability 1/100 = 0.01, and the expected sample size over
N terms — the average of `sampleCount` over the uniform space of
independent draw vectors — is 0.01 times N. -/
theorem sampler_rate (N : Nat) (verdicts : Fin N → Verdict) :
    (∀ (draw : Fin 100) (v w : Verdict), samplerDraw draw v = samplerDraw draw w) ∧
    (∀ w : Verdict,
      (((Finset.univ.filter (fun x : Fin 100 => samplerDraw x w = true)).card : ℚ) / 100
        = 0.01)) ∧
    ((∑ d : Fin N → Fin 100, sampleCount N d verdicts : ℕ) : ℚ)
      = 0.01 * N * 100 ^ N := by
  refine ⟨fun draw v w => rfl, ?_, ?_⟩
  · intro w
    have h1 : (Finset.univ.filter (fun x : Fin 100 => samplerDraw x w = true)).card = 1 := by
      simp only [samplerDraw, beq_iff_eq]
      decide
    rw [h1]
    norm_num
  · have h := sampler_sum N verdicts
    have hq : ((100 * ∑ d : Fin N → Fin 100, sampleCount N d verdicts : ℕ) : ℚ)
        = ((N * 100 ^ N : ℕ) : ℚ) := by exact_mod_cast congrArg Nat.cast h
    push_cast at hq
    push_cast
    rw [show (0.01 : ℚ) = 1 / 100 by norm_num]
    linarith

/-- Decimal digit accumulator used by `safeCastInt`: consumes the
character list and accumulates the decimal value, failing on the first
non-digit character. -/
def parseDigits : List Char → Nat → Option Nat
  | [], acc => some acc
  | c :: cs, acc =>
    if c.isDigit then parseDigits cs (acc * 10 + (c.toNat - 48)) else none

/-- Hexadecimal digit accumulator used by `safeCastInt`: consumes the
character list after a 0x prefix, failing on the first character that
is not 0-9, a-f or A-F. -/
def parseHexDigits : List Char → Nat → Option Nat
  | [], acc => some acc
  | c :: cs, acc =>
    if c.isDigit then parseHexDigits cs (acc * 16 + (c.toNat - 48))
    else if 97 ≤ c.toNat && c.toNat ≤ 102 then parseHexDigits cs (acc * 16 + (c.toNat - 87))
    else if 65 ≤ c.toNat && c.toNat ≤ 70 then parseHexDigits cs (acc * 16 + (c.toNat - 55))
    else none

/-- Magnitude of a GoogleSQL integer literal string (after the
optional sign): either 0x or 0X followed by at least one hexadecimal
digit, or at least one decimal digit; anything else fails. -/
def parseMagnitude : List Char → Option Nat
  | [] => none
  | '0' :: 'x' :: cs => if cs.isEmpty then none else parseHexDigits cs 0
  | '0' :: 'X' :: cs => if cs.isEmpty then none else parseHexDigits cs 0
  | cs => parseDigits cs 0

/-- Largest INT64 value, 2^63 - 1. -/
def int64Max : Int := 9223372036854775807

/-- Smallest INT64 value, -2^63. -/
def int64Min : Int := -9223372036854775808

/-- Embeds SAFE_CAST(lang.value AS int) from the
`POPULATE_LANGUAGES_TABLE` query of the staging notebook, following
the GoogleSQL STRING-to-INT64 cast: an optional sign followed by a
decimal magnitude or a 0x-prefixed hexadecimal magnitude casts to the
integer, provided the signed result fits INT64; every other string —
malformed or out of the INT64 range — yields NULL (`none`) instead of
raising an error. -/
def safeCastInt (s : String) : Option Int :=
  let signed : Option Int :=
    match s.data with
    | [] => none
    | '-' :: cs => (parseMagnitude cs).map (fun n => -(n : Int))
    | '+' :: cs => (parseMagnitude cs).map (fun n => (n : Int))
    | cs => (parseMagnitude cs).map (fun n => (n : Int))
  match signed with
  | none => none
  | some v => if int64Min ≤ v ∧ v ≤ int64Max then some v else none

/-- One row of the job-metadata origin table, as consumed by
`POPULATE_LANGUAGES_TABLE`: the run's start time and the string map
extracted by mozfun.json.js_extract_string_map from
approximate_language_proportions_json. -/
structure JobMeta where
  started_at : String
  langMap : List (String × String)
  deriving DecidableEq, Repr

/-- One row of the languages table produced by
`POPULATE_LANGUAGES_TABLE`: job_start_time, language_code and the
SAFE_CAST search_term_count (NULL when the cast fails). -/
structure LanguageRow where
  job_start_time : String
  language_code : String
  search_term_count : Option Int
  deriving DecidableEq, Repr

/-- Embeds the SELECT of `POPULATE_LANGUAGES_TABLE` restricted to one
metadata row: CROSS JOIN UNNEST emits one row per entry of the
extracted string map, carrying started_at, the key, and the SAFE_CAST
of the value. -/
def unnestRun (m : JobMeta) : List LanguageRow :=
  m.langMap.map (fun kv => ⟨m.started_at, kv.1, safeCastInt kv.2⟩)

/-- Embeds the whole `POPULATE_LANGUAGES_TABLE` statement: CREATE OR
REPLACE TABLE rebuilds the languages table from every row of the
job-metadata origin; the previous contents of the languages table are
not read. -/
def populateLanguagesTable (metadata : List JobMeta)
    (previous : List LanguageRow) : List LanguageRow :=
  (metadata.map unnestRun).flatten

/-- Sum of the emitted counts of a list of language rows, with NULL
counted as 0. -/
def sumCounts (rows : List LanguageRow) : Int :=
  (rows.map (fun r => r.search_term_count.getD 0)).sum

/-- Total of a metadata row's language-count mapping: the sum of the
SAFE_CAST values of its entries, with NULL counted as 0. -/
def mapTotal (m : JobMeta) : Int :=
  (m.langMap.map (fun kv => (safeCastInt kv.2).getD 0)).sum

/-- C8: the Language Unnester is a pure function of the persisted
mapping: it emits exactly one LanguageRow per entry (same length, same
key sequence), the emitted counts sum to the total of the mapping's
counts, and a mapping of en/es/fr with counts 900, 80 and 20 yields
exactly three rows whose counts sum to 1000. -/
theorem language_unnest_rows (m : JobMeta) (t : String) :
    (unnestRun m).length = m.langMap.length ∧
    (unnestRun m).map (fun r => r.language_code) = m.langMap.map (fun kv => kv.1) ∧
    sumCounts (unnestRun m) = mapTotal m ∧
    (unnestRun ⟨t, [("en", "900"), ("es", "80"), ("fr", "20")]⟩).length = 3 ∧
    sumCounts (unnestRun ⟨t, [("en", "900"), ("es", "80"), ("fr", "20")]⟩) = 1000 := by
  refine ⟨List.length_map _ _, ?_, ?_, rfl, ?_⟩
  · rw [unnestRun, List.map_map]
    rfl
  · rw [sumCounts, unnestRun, List.map_map]
    rfl
  · show ((safeCastInt ("900")).getD 0 + ((safeCastInt ("80")).getD 0
      + ((safeCastInt ("20")).getD 0 + 0))) = 1000
    decide

/-- C9 counterexample: an invocation of `POPULATE_LANGUAGES_TABLE`
whose metadata origin holds one run drops a LanguageRow that was
already present for an earlier run, because CREATE OR REPLACE rebuilds
the whole table; so the languages destination is not an append
target. -/
theorem language_replace_counterexample :
    LanguageRow.mk ("2022-01-01 03:00:00") ("en") (some 5) ∉
      populateLanguagesTable ([⟨"2022-01-02 03:00:00", [("en", "7")]⟩])
        ([LanguageRow.mk ("2022-01-01 03:00:00") ("en") (some 5)]) := by
  decide

/-- C9 amended: each invocation of the Language Unnester rebuilds the
languages table from the job-metadata origin alone — the result is
independent of the table's previous contents, and it contains the
unnested rows of every JobRun present in the metadata origin (rows of
earlier runs survive only by being re-derived from metadata). -/
theorem language_rebuild (metadata : List JobMeta) (prev1 prev2 : List LanguageRow)
    (m : JobMeta) (r : LanguageRow)
    (hm : m ∈ metadata) (hr : r ∈ unnestRun m) :
    populateLanguagesTable metadata prev1 = populateLanguagesTable metadata prev2 ∧
    r ∈ populateLanguagesTable metadata prev1 := by
  refine ⟨rfl, ?_⟩
  rw [populateLanguagesTable, List.mem_flatten]
  exact ⟨unnestRun m, List.mem_map_of_mem unnestRun hm, hr⟩

/-- Witness for the amended C9: rebuilding over a one-run metadata
origin gives the same table whatever was previously stored, and the
run's row (en, 7) is present. -/
theorem language_rebuild_witness :
    (⟨"2022-01-02 03:00:00", [("en", "7")]⟩ : JobMeta) ∈
        ([(⟨"2022-01-02 03:00:00", [("en", "7")]⟩ : JobMeta)]) ∧
    LanguageRow.mk ("2022-01-02 03:00:00") ("en") (some 7) ∈
        unnestRun (⟨"2022-01-02 03:00:00", [("en", "7")]⟩ : JobMeta) ∧
    (populateLanguagesTable ([(⟨"2022-01-02 03:00:00", [("en", "7")]⟩ : JobMeta)])
          ([LanguageRow.mk ("2022-01-01 03:00:00") ("en") (some 5)])
        = populateLanguagesTable ([(⟨"2022-01-02 03:00:00", [("en", "7")]⟩ : JobMeta)]) [] ∧
      LanguageRow.mk ("2022-01-02 03:00:00") ("en") (some 7) ∈
        populateLanguagesTable ([(⟨"2022-01-02 03:00:00", [("en", "7")]⟩ : JobMeta)])
          ([LanguageRow.mk ("2022-01-01 03:00:00") ("en") (some 5)])) :=
  ⟨by decide, by decide,
    language_rebuild ([(⟨"2022-01-02 03:00:00", [("en", "7")]⟩ : JobMeta)])
      ([LanguageRow.mk ("2022-01-01 03:00:00") ("en") (some 5)]) []
      (⟨"2022-01-02 03:00:00", [("en", "7")]⟩ : JobMeta)
      (LanguageRow.mk ("2022-01-02 03:00:00") ("en") (some 7))
      (by decide) (by decide)⟩

/-- C10: unnesting is total over arbitrary string-valued mappings —
every entry yields a LanguageRow (one row per entry), and an entry
whose value is not a valid integer yields its row with a NULL count
rather than aborting the invocation. -/
theorem safe_cast_total_rows (m : JobMeta) (k v : String)
    (hkv : (k, v) ∈ m.langMap) (hbad : safeCastInt v = none) :
    (unnestRun m).length = m.langMap.length ∧
    LanguageRow.mk m.started_at k none ∈ unnestRun m := by
  refine ⟨List.length_map _ _, ?_⟩
  rw [unnestRun, List.mem_map]
  exact ⟨(k, v), hkv, by rw [← hbad]⟩

/-- Witness for C10: a mapping holding a well-formed entry and an
entry whose value exceeds the INT64 range fails the safe cast (as does
a non-numeric value) yet still yields its row, with a NULL count; hex
strings cast to their value per the GoogleSQL STRING-to-INT64 rules. -/
theorem safe_cast_total_rows_witness :
    ((("big" : String), ("9223372036854775808" : String)) ∈
        ([(("en" : String), ("900" : String)),
          (("big" : String), ("9223372036854775808" : String))])) ∧
    safeCastInt ("9223372036854775808") = none ∧
    safeCastInt ("9223372036854775807") = some 9223372036854775807 ∧
    safeCastInt ("not-a-number") = none ∧
    safeCastInt ("0x123") = some 291 ∧
    safeCastInt ("-0x123") = some (-291) ∧
    ((unnestRun ⟨"2022-01-02 03:00:00",
          [(("en" : String), ("900" : String)),
           (("big" : String), ("9223372036854775808" : String))]⟩).length
        = ([(("en" : String), ("900" : String)),
            (("big" : String), ("9223372036854775808" : String))]).length ∧
      LanguageRow.mk ("2022-01-02 03:00:00") ("big") none ∈
        unnestRun ⟨"2022-01-02 03:00:00",
          [(("en" : String), ("900" : String)),
           (("big" : String), ("9223372036854775808" : String))]⟩) :=
  ⟨by decide, by decide, by decide, by decide, by decide, by decide,
    safe_cast_total_rows
      ⟨"2022-01-02 03:00:00",
        [(("en" : String), ("900" : String)),
         (("big" : String), ("9223372036854775808" : String))]⟩
      ("big") ("9223372036854775808") (by decide) (by decide)⟩

end SearchTermsSanitization
